import Mathlib

/-!
Verification of the core scanning/scoring pipeline of
`skills/crypto-token-analyzer/scripts/scan_contract.py`.

The pure stages of the script are embedded shallowly:
* the risk aggregator `calculate_risk_score` (floats are modelled by `ℚ`;
  every weight is a multiple of 1/2, so rational arithmetic agrees with the
  Python float arithmetic on the whole clamped range),
* the ownership resolver `check_ownership_status` (the event-processing part,
  parameterised by the decoded list of log events of a successful API reply),
* the pattern scanner `scan_for_patterns` on top of an executable backtracking
  regex engine mirroring Python `re` semantics (ordered alternation, greedy
  quantifiers, leftmost non-overlapping `findall`, `re.IGNORECASE`),
* the source normalizer part of `fetch_contract_source` on top of an
  executable JSON parser modelling `json.loads`.
-/

namespace ScanContract

/-! ### Basic helpers -/

/-- Python `int()` applied to a numeric value: truncation toward zero. -/
def pytrunc (q : ℚ) : ℤ :=
  if 0 ≤ q then ⌊q⌋ else -⌊-q⌋

/-- Python `s[-n:]`: the last `n` characters of a string (the whole string
when it is shorter than `n`). -/
def lastChars (n : Nat) (s : String) : String :=
  String.mk (s.data.drop (s.data.length - n))

/-- `leadsWith p s` iff the char list `p` is an initial segment of `s`
(Python `str.startswith` on the underlying characters). -/
def leadsWith : List Char → List Char → Bool
  | [], _ => true
  | _ :: _, [] => false
  | p :: ps, c :: cs => p == c && leadsWith ps cs

/-! ### Findings and ownership data -/

/-- The `ownership_info` dictionary returned by `check_ownership_status`. -/
structure OwnershipInfo where
  renounced : Bool
  current_owner : String
  transfer_events : Nat
deriving DecidableEq, Repr

/-- The spec-level three-valued ownership status. -/
inductive OwnershipStatus where
  | Renounced : OwnershipStatus
  | HeldBy : String → OwnershipStatus
  | Unknown : OwnershipStatus
deriving DecidableEq, Repr

/-- Spec-level view of the `ownership_info` dictionary as an
`OwnershipStatus`. -/
def statusOfInfo (i : OwnershipInfo) : OwnershipStatus :=
  if i.renounced then .Renounced
  else if i.current_owner = "Unknown" then .Unknown
  else .HeldBy i.current_owner

/-! ### Ownership resolver (`check_ownership_status`, lines 224-247) -/

/-- A decoded log event: we only keep the `topics` field the resolver
reads. -/
structure LogEvent where
  topics : List String
deriving DecidableEq, Repr

/-- The 66-character zero topic `"0x" + "0" * 64` the code compares
against. -/
def zeroTopic : String :=
  String.mk ('0' :: 'x' :: List.replicate 64 '0')

/-- The 40-hex-character zero address (no `0x`). -/
def zeroAddr40 : String :=
  String.mk (List.replicate 40 '0')

/-- Shallow embedding of the event-processing part of
`check_ownership_status`: the behaviour on a successful API reply whose
`result` field decoded to `events`.  A Python empty `result` list is falsy,
so the empty list keeps the initial dictionary
`\x7b"renounced": False, "current_owner": "Unknown", "transfer_events": 0\x7d`. -/
def resolveOwnership (events : List LogEvent) : OwnershipInfo :=
  match events.getLast? with
  | none => { renounced := false, current_owner := "Unknown", transfer_events := 0 }
  | some lastEvent =>
    let topics := lastEvent.topics
    if 3 ≤ topics.length then
      let new_owner := topics.getD 2 ""
      if new_owner = zeroTopic then
        { renounced := true
          current_owner := "0x0000000000000000000000000000000000000000"
          transfer_events := events.length }
      else
        { renounced := false
          current_owner := "0x" ++ lastChars 40 new_owner
          transfer_events := events.length }
    else
      { renounced := false, current_owner := "Unknown", transfer_events := events.length }

/-- The third topic of an event (Python `topics[2]`, defined when the event
has at least three topics). -/
def thirdTopic (e : LogEvent) : String :=
  e.topics.getD 2 ""

/-! ### Regex engine

A small executable backtracking matcher mirroring the semantics of Python
`re` on the constructs used by the `DANGEROUS_PATTERNS` catalog: literals,
character classes, `\s` `\w` `\d`, ordered alternation `|`, greedy `*` `+`
`?` `\x7b2,\x7d` (quantifiers in the catalog only ever apply to single-character
items), and capturing groups.  `re.IGNORECASE` is baked into the character
predicates.  `\w` and `\s` are modelled on ASCII. -/

/-- Regex syntax.  Quantified subterms in the catalog are always
single-character predicates, which `starP` exploits. -/
inductive Regex where
  | eps : Regex
  | pred : (Char → Bool) → Regex
  | cat : Regex → Regex → Regex
  | alt : Regex → Regex → Regex
  | starP : (Char → Bool) → Regex
  | group : Nat → Regex → Regex

/-- One candidate match: the consumed characters, the remaining input, and
the captures `(group index, captured characters)` recorded so far. -/
structure MRes where
  consumed : List Char
  rest : List Char
  caps : List (Nat × List Char)
deriving DecidableEq, Repr

/-- All ways a greedy `p*` can run on `s`, longest first. -/
def starRuns (p : Char → Bool) (s : List Char) : List (List Char × List Char) :=
  let run := s.takeWhile p
  (List.range (run.length + 1)).reverse.map fun i => (s.take i, s.drop i)

/-- Backtracking matcher: all candidate matches of `r` at the start of `s`,
in the priority order of the Python engine (ordered alternation, greedy
quantifiers).  The head of the list is the match Python commits to. -/
def Regex.mrun : Regex → List Char → List MRes
  | .eps, s => [⟨[], s, []⟩]
  | .pred _, [] => []
  | .pred p, c :: s => if p c then [⟨[c], s, []⟩] else []
  | .cat a b, s =>
    (a.mrun s).flatMap fun ra =>
      (b.mrun ra.rest).map fun rb =>
        ⟨ra.consumed ++ rb.consumed, rb.rest, ra.caps ++ rb.caps⟩
  | .alt a b, s => a.mrun s ++ b.mrun s
  | .starP p, s => (starRuns p s).map fun cr => ⟨cr.1, cr.2, []⟩
  | .group i a, s =>
    (a.mrun s).map fun ra => ⟨ra.consumed, ra.rest, ra.caps ++ [(i, ra.consumed)]⟩

/-- Scan loop of `re.findall`: try to match at the current position; on
failure move one character right; on success record the match and resume
after it (one character further when the match is empty).  The fuel argument
dominates the input length, so it never runs out. -/
def findAllAux (r : Regex) : Nat → List Char → List MRes
  | 0, _ => []
  | fuel + 1, s =>
    match (r.mrun s).head? with
    | some m =>
      if m.consumed.isEmpty then
        m :: (match s with
              | [] => []
              | _ :: t => findAllAux r fuel t)
      else m :: findAllAux r fuel m.rest
    | none =>
      match s with
      | [] => []
      | _ :: t => findAllAux r fuel t

/-- The non-overlapping leftmost matches of `r` in `s`, in text order: the
match sequence underlying Python `re.findall`. -/
def Regex.findAll (r : Regex) (s : List Char) : List MRes :=
  findAllAux r (s.length + 1) s

/-- Number of capturing groups of a pattern. -/
def Regex.numGroups : Regex → Nat
  | .eps => 0
  | .pred _ => 0
  | .starP _ => 0
  | .cat a b => a.numGroups + b.numGroups
  | .alt a b => a.numGroups + b.numGroups
  | .group _ a => a.numGroups + 1

/-- An element of a Python `re.findall` result: a string, or a tuple of
group captures when the pattern has two or more groups. -/
inductive FItem where
  | str : String → FItem
  | tup : List String → FItem
deriving DecidableEq, Repr

/-- Group capture as `findall` reports it: the captured text, `""` for a
group that did not participate in the match. -/
def capGet (caps : List (Nat × List Char)) (i : Nat) : String :=
  String.mk ((caps.lookup i).getD [])

/-- Python `findall`'s per-match output: the whole match when the pattern
has no group, the single capture for one group, the tuple of captures
otherwise. -/
def toFItem (n : Nat) (m : MRes) : FItem :=
  if n = 0 then .str (String.mk m.consumed)
  else if n = 1 then .str (capGet m.caps 1)
  else .tup ((List.range n).map fun i => capGet m.caps (i + 1))

/-- `re.findall(pattern, s, re.IGNORECASE)` (the flag is baked into the
pattern's character predicates). -/
def pyFindall (r : Regex) (s : List Char) : List FItem :=
  (r.findAll s).map (toFItem r.numGroups)

/-! ### The signature catalog (`DANGEROUS_PATTERNS`, lines 34-128) -/

/-- Case-insensitive single character (the effect of `re.IGNORECASE` on a
literal character). -/
def icChar (c : Char) : Char → Bool :=
  fun d => d.toLower == c.toLower

/-- `\s` (ASCII whitespace). -/
def spaceC (c : Char) : Bool :=
  [' ', '\t', '\n', '\x0d', '\x0b', '\x0c'].contains c

/-- `\w` (ASCII word character). -/
def wordC (c : Char) : Bool :=
  c.isDigit || c.isAlpha || c == '_'

/-- `\d`. -/
def digitC (c : Char) : Bool :=
  c.isDigit

/-- A character class `[...]` under `re.IGNORECASE`. -/
def inSet (cs : String) (d : Char) : Bool :=
  cs.data.any fun c => icChar c d

/-- A negated class `[^c]`. -/
def notC (c : Char) (d : Char) : Bool :=
  !(d == c)

/-- A case-insensitive literal. -/
def lit (s : String) : Regex :=
  s.data.foldr (fun c r => .cat (.pred (icChar c)) r) .eps

/-- Concatenation of a list of regexes. -/
def rcat (l : List Regex) : Regex :=
  l.foldr .cat .eps

/-- Greedy `p+` on a character predicate. -/
def plusP (p : Char → Bool) : Regex :=
  .cat (.pred p) (.starP p)

/-- Greedy `r?`. -/
def opt (r : Regex) : Regex :=
  .alt r .eps

/-- Ordered three-way alternation. -/
def alt3 (a b c : Regex) : Regex :=
  .alt a (.alt b c)

/-- Ordered four-way alternation. -/
def alt4 (a b c d : Regex) : Regex :=
  .alt a (.alt b (.alt c d))

/-- A catalog rule: name, pattern, description. -/
structure Rule where
  name : String
  pattern : Regex
  description : String

/-- `function\s+\w*[Mm]int\w*\s*\([^)]*\)\s*(external|public|internal)` -/
def ruleHiddenMint : Rule :=
  { name := "Hidden Mint"
    pattern := rcat [lit "function", plusP spaceC, .starP wordC,
      .pred (inSet "Mm"), lit "int", .starP wordC, .starP spaceC, lit "(",
      .starP (notC ')'), lit ")", .starP spaceC,
      .group 1 (alt3 (lit "external") (lit "public") (lit "internal"))]
    description := "Owner can create unlimited tokens" }

/-- `require\s*\(\s*\w+\s*==\s*owner|require\s*\(\s*msg\.sender\s*==\s*owner` -/
def ruleHoneypot : Rule :=
  { name := "Honeypot - Transfer Block"
    pattern := .alt
      (rcat [lit "require", .starP spaceC, lit "(", .starP spaceC,
        plusP wordC, .starP spaceC, lit "==", .starP spaceC, lit "owner"])
      (rcat [lit "require", .starP spaceC, lit "(", .starP spaceC,
        lit "msg.sender", .starP spaceC, lit "==", .starP spaceC, lit "owner"])
    description := "Transfer may be restricted to owner only" }

/-- `function\s+\w*[Bb]lacklist\w*|mapping\s*\([^)]*\)\s*(public|private|internal)?\s*\w*[Bb]lacklist` -/
def ruleBlacklist : Rule :=
  { name := "Blacklist Function"
    pattern := .alt
      (rcat [lit "function", plusP spaceC, .starP wordC,
        .pred (inSet "Bb"), lit "lacklist", .starP wordC])
      (rcat [lit "mapping", .starP spaceC, lit "(", .starP (notC ')'),
        lit ")", .starP spaceC,
        opt (.group 1 (alt3 (lit "public") (lit "private") (lit "internal"))),
        .starP spaceC, .starP wordC, .pred (inSet "Bb"), lit "lacklist"])
    description := "Contract can blacklist addresses from trading" }

/-- `selfdestruct\s*\(|suicide\s*\(` -/
def ruleSelfDestruct : Rule :=
  { name := "Self-Destruct"
    pattern := .alt
      (rcat [lit "selfdestruct", .starP spaceC, lit "("])
      (rcat [lit "suicide", .starP spaceC, lit "("])
    description := "Contract can be destroyed, potentially stealing funds" }

/-- `\.delegatecall\s*\(` -/
def ruleDelegatecall : Rule :=
  { name := "Delegatecall"
    pattern := rcat [lit ".delegatecall", .starP spaceC, lit "("]
    description := "Can execute arbitrary code from external contract" }

/-- `function\s+renounceOwnership|Ownable|owner\s*\(\s*\)` -/
def ruleOwnership : Rule :=
  { name := "Ownership Not Renounced"
    pattern := alt3
      (rcat [lit "function", plusP spaceC, lit "renounceOwnership"])
      (lit "Ownable")
      (rcat [lit "owner", .starP spaceC, lit "(", .starP spaceC, lit ")"])
    description := "Contract has owner privileges (check if renounced)" }

/-- `function\s+pause\s*\(|whenNotPaused|Pausable` -/
def rulePause : Rule :=
  { name := "Pause Function"
    pattern := alt3
      (rcat [lit "function", plusP spaceC, lit "pause", .starP spaceC, lit "("])
      (lit "whenNotPaused")
      (lit "Pausable")
    description := "Trading can be paused by owner" }

/-- `maxTx|_maxTxAmount|maxTransactionAmount` -/
def ruleMaxTx : Rule :=
  { name := "Max Transaction Limit"
    pattern := alt3 (lit "maxTx") (lit "_maxTxAmount") (lit "maxTransactionAmount")
    description := "Transaction limits can trap buyers" }

/-- `(tax|fee|Tax|Fee)\s*=\s*(\d\x7b2,\x7d)|setTax|setFee` -/
def ruleHighTax : Rule :=
  { name := "High Tax/Fee"
    pattern := alt3
      (rcat [.group 1 (alt4 (lit "tax") (lit "fee") (lit "Tax") (lit "Fee")),
        .starP spaceC, lit "=", .starP spaceC,
        .group 2 (rcat [.pred digitC, .pred digitC, .starP digitC])])
      (lit "setTax")
      (lit "setFee")
    description := "Adjustable fees could be set extremely high" }

/-- `function\s+_transfer[^\x7d]+\.call\x7b` -/
def ruleExternalCall : Rule :=
  { name := "External Call in Transfer"
    pattern := rcat [lit "function", plusP spaceC, lit "_transfer",
      plusP (notC '\x7d'), lit ".call", lit "\x7b"]
    description := "External calls during transfer can be exploited" }

/-- `Proxy|upgradeable|implementation|_implementation` -/
def ruleProxy : Rule :=
  { name := "Proxy Pattern"
    pattern := alt4 (lit "Proxy") (lit "upgradeable") (lit "implementation")
      (lit "_implementation")
    description := "Upgradeable contract - logic can be changed" }

/-- `antiBot|_isBot|botWallet|sniper` -/
def ruleAntiBot : Rule :=
  { name := "Anti-Bot Measures"
    pattern := alt4 (lit "antiBot") (lit "_isBot") (lit "botWallet") (lit "sniper")
    description := "Anti-bot code can be used to block legitimate users" }

/-- `cooldown|_cooldown|buyCooldown|sellCooldown` -/
def ruleCooldown : Rule :=
  { name := "Cooldown Period"
    pattern := alt4 (lit "cooldown") (lit "_cooldown") (lit "buyCooldown")
      (lit "sellCooldown")
    description := "Trading cooldowns can prevent selling" }

/-- `maxWallet|_maxWalletSize|maxWalletAmount` -/
def ruleMaxWallet : Rule :=
  { name := "Max Wallet Limit"
    pattern := alt3 (lit "maxWallet") (lit "_maxWalletSize") (lit "maxWalletAmount")
    description := "Wallet limits can restrict accumulation" }

/-- `reflect|_rOwned|_tOwned|dividend` -/
def ruleReflection : Rule :=
  { name := "Reflection/Rewards"
    pattern := alt4 (lit "reflect") (lit "_rOwned") (lit "_tOwned") (lit "dividend")
    description := "Reflection mechanism (complex tokenomics)" }

/-- `swapAndLiquify|addLiquidity|_swapTokensForEth` -/
def ruleLiquidity : Rule :=
  { name := "Liquidity Generation"
    pattern := alt3 (lit "swapAndLiquify") (lit "addLiquidity") (lit "_swapTokensForEth")
    description := "Auto-liquidity feature" }

/-- `marketingWallet|_marketingAddress|marketingFee` -/
def ruleMarketing : Rule :=
  { name := "Marketing Wallet"
    pattern := alt3 (lit "marketingWallet") (lit "_marketingAddress") (lit "marketingFee")
    description := "Marketing fee collection" }

/-- `DANGEROUS_PATTERNS["critical"]`. -/
def criticalRules : List Rule :=
  [ruleHiddenMint, ruleHoneypot, ruleBlacklist, ruleSelfDestruct, ruleDelegatecall]

/-- `DANGEROUS_PATTERNS["high"]`. -/
def highRules : List Rule :=
  [ruleOwnership, rulePause, ruleMaxTx, ruleHighTax, ruleExternalCall]

/-- `DANGEROUS_PATTERNS["medium"]`. -/
def mediumRules : List Rule :=
  [ruleProxy, ruleAntiBot, ruleCooldown, ruleMaxWallet]

/-- `DANGEROUS_PATTERNS["info"]`. -/
def infoRules : List Rule :=
  [ruleReflection, ruleLiquidity, ruleMarketing]

/-! ### Pattern scanner (`scan_for_patterns`, lines 184-204) -/

/-- One finding dictionary appended by `scan_for_patterns`. -/
structure Finding where
  name : String
  description : String
  occurrences : Nat
  sample : FItem
deriving DecidableEq, Repr

/-- The findings dictionary `\x7b"critical": [...], "high": [...],
"medium": [...], "info": [...]\x7d`. -/
structure Findings where
  critical : List Finding
  high : List Finding
  medium : List Finding
  info : List Finding
deriving DecidableEq, Repr

/-- The inner loop of `scan_for_patterns` over one severity's rule list:
`matches = re.findall(...); if matches: append \x7b..., "occurrences":
len(matches), "sample": matches[0]\x7d`. -/
def scanRules : List Rule → List Char → List Finding
  | [], _ => []
  | r :: rs, src =>
    let ms := pyFindall r.pattern src
    if ms.isEmpty then scanRules rs src
    else
      { name := r.name, description := r.description
        occurrences := ms.length, sample := ms.headD (.str "") } :: scanRules rs src

/-- Shallow embedding of `scan_for_patterns`: the severities are visited in
the dictionary's insertion order critical, high, medium, info. -/
def scan_for_patterns (source_code : String) : Findings :=
  { critical := scanRules criticalRules source_code.data
    high := scanRules highRules source_code.data
    medium := scanRules mediumRules source_code.data
    info := scanRules infoRules source_code.data }

/-- Severity tags of the findings dictionary. -/
inductive Severity where
  | critical | high | medium | info
deriving DecidableEq, Repr

/-- The catalog list of a severity. -/
def severityRules : Severity → List Rule
  | .critical => criticalRules
  | .high => highRules
  | .medium => mediumRules
  | .info => infoRules

/-- The findings list of a severity. -/
def severityFindings : Severity → Findings → List Finding
  | .critical, f => f.critical
  | .high, f => f.high
  | .medium, f => f.medium
  | .info, f => f.info

/-! ### Risk aggregator (`calculate_risk_score`, lines 250-284) -/

/-- Shallow embedding of `calculate_risk_score`.  The Python float `score`
is modelled by a rational; `int(score)` is `pytrunc`; `min(10, max(1, _))`
is kept verbatim. -/
def calculate_risk_score (findings : Findings) (is_verified : Bool)
    (ownership : OwnershipInfo) : ℤ × String :=
  let score : ℚ := 0
  let score : ℚ := if is_verified then score else score + 4
  let score : ℚ := if ownership.renounced then score else score + 2
  let score : ℚ := score + (findings.critical.length : ℚ) * 3
  let score : ℚ := score + (findings.high.length : ℚ) * (3 / 2)
  let score : ℚ := score + (findings.medium.length : ℚ) * (1 / 2)
  let capped : ℤ := min 10 (max 1 (pytrunc score))
  let level : String :=
    if capped ≥ 8 then "Critical"
    else if capped ≥ 6 then "High"
    else if capped ≥ 4 then "Medium"
    else "Low"
  (capped, level)

/-- The risk aggregation formula as the spec states it: base 0, +4 when
unverified, +2 when ownership is not `Renounced` (both `HeldBy` and
`Unknown`), +3 per critical finding, +1.5 per high, +0.5 per medium, info
contributing nothing; the raw sum truncated to an integer and clamped to
[1,10]. -/
def riskScoreSpec (is_verified : Bool) (st : OwnershipStatus)
    (c h m : Nat) : ℤ :=
  let raw : ℚ := if is_verified then 0 else 4
  let raw : ℚ := raw +
    (match st with
     | .Renounced => 0
     | .HeldBy _ => 2
     | .Unknown => 2)
  let raw : ℚ := raw + (c : ℚ) * 3 + (h : ℚ) * (3 / 2) + (m : ℚ) * (1 / 2)
  min 10 (max 1 (pytrunc raw))

/-- The category ladder as the spec states it, applied to a clamped score. -/
def categoryOfScore (s : ℤ) : String :=
  if s ≥ 8 then "Critical"
  else if s ≥ 6 then "High"
  else if s ≥ 4 then "Medium"
  else "Low"

/-! ### JSON values and an executable model of `json.loads`

Only what the normalizer needs: objects keep their fields in document
order with Python-dict duplicate-key semantics (a later duplicate
overwrites the value but keeps the original position).  Numbers are kept
as lexemes — the normalizer never reads them. -/

/-- A parsed JSON value. -/
inductive JsonV where
  | null : JsonV
  | boolV : Bool → JsonV
  | num : String → JsonV
  | str : String → JsonV
  | arr : List JsonV → JsonV
  | obj : List (String × JsonV) → JsonV

/-- Skip JSON whitespace. -/
def skipWs : List Char → List Char
  | [] => []
  | c :: cs =>
    if c == ' ' || c == '\t' || c == '\n' || c == '\r' then skipWs cs
    else c :: cs

/-- Numeric value of one hex digit of a `\uXXXX` escape. -/
def hexDigitValue (c : Char) : Option Nat :=
  let n := c.toNat
  if 48 ≤ n && n ≤ 57 then some (n - 48)
  else if 97 ≤ n && n ≤ 102 then some (n - 87)
  else if 65 ≤ n && n ≤ 70 then some (n - 55)
  else none

/-- Decode a one-character JSON escape (everything except `\u`). -/
def escDecode (e : Char) : Option Char :=
  if e == '"' then some '"'
  else if e == '\\' then some '\\'
  else if e == '/' then some '/'
  else if e == 'b' then some '\x08'
  else if e == 'f' then some '\x0c'
  else if e == 'n' then some '\x0a'
  else if e == 'r' then some '\x0d'
  else if e == 't' then some '\x09'
  else none

/-- Decode the four hex digits of a `\uXXXX` escape. -/
def uDecode (h1 h2 h3 h4 : Char) : Option Char :=
  match hexDigitValue h1, hexDigitValue h2, hexDigitValue h3, hexDigitValue h4 with
  | some a, some b, some c, some d => some (Char.ofNat (4096 * a + 256 * b + 16 * c + d))
  | _, _, _, _ => none

/-- Body of a JSON string, after the opening quote: returns the decoded
characters and the input after the closing quote.  Raw control characters
are rejected as in strict-mode `json.loads`. -/
def jstrAux : Nat → List Char → List Char → Option (List Char × List Char)
  | 0, _, _ => none
  | fuel + 1, acc, cs =>
    match cs with
    | [] => none
    | c :: rest =>
      if c == '"' then some (acc.reverse, rest)
      else if c == '\\' then
        match rest with
        | [] => none
        | e :: r2 =>
          if e == 'u' then
            match r2 with
            | h1 :: h2 :: h3 :: h4 :: r3 =>
              match uDecode h1 h2 h3 h4 with
              | some ch => jstrAux fuel (ch :: acc) r3
              | none => none
            | _ => none
          else
            match escDecode e with
            | some ch => jstrAux fuel (ch :: acc) r2
            | none => none
      else if c.toNat < 32 then none
      else jstrAux fuel (c :: acc) rest

/-- Longest digit run at the front. -/
def spanDigits : List Char → List Char × List Char
  | [] => ([], [])
  | c :: cs =>
    if c.isDigit then
      let dr := spanDigits cs
      (c :: dr.1, dr.2)
    else ([], c :: cs)

/-- Optional fraction part `.digits`. -/
def parseFrac (cs : List Char) : Option (List Char × List Char) :=
  match cs with
  | '.' :: r =>
    match spanDigits r with
    | ([], _) => none
    | (d, r2) => some ('.' :: d, r2)
  | _ => some ([], cs)

/-- Optional exponent part. -/
def parseExp (cs : List Char) : Option (List Char × List Char) :=
  match cs with
  | c :: r =>
    if c == 'e' || c == 'E' then
      let sr : List Char × List Char :=
        match r with
        | '+' :: rr => (['+'], rr)
        | '-' :: rr => (['-'], rr)
        | _ => ([], r)
      match spanDigits sr.2 with
      | ([], _) => none
      | (d, r2) => some (c :: (sr.1 ++ d), r2)
    else some ([], cs)
  | [] => some ([], [])

/-- A JSON number lexeme (no leading zeros, per the JSON grammar). -/
def parseNumLex (cs : List Char) : Option (List Char × List Char) := do
  let sr : List Char × List Char :=
    match cs with
    | '-' :: r => (['-'], r)
    | _ => ([], cs)
  match sr.2 with
  | [] => none
  | c :: r =>
    if c == '0' then do
      let (f, r1) ← parseFrac r
      let (e, r2) ← parseExp r1
      return (sr.1 ++ ['0'] ++ f ++ e, r2)
    else if c.isDigit then do
      let dr := spanDigits r
      let (f, r1) ← parseFrac dr.2
      let (e, r2) ← parseExp r1
      return (sr.1 ++ (c :: dr.1) ++ f ++ e, r2)
    else none

/-- Python-dict insertion: a duplicate key overwrites in place, a fresh key
is appended. -/
def insertField (fs : List (String × JsonV)) (k : String) (v : JsonV) :
    List (String × JsonV) :=
  match fs with
  | [] => [(k, v)]
  | (k0, v0) :: t =>
    if k0 == k then (k0, v) :: t else (k0, v0) :: insertField t k v

mutual

/-- Parse one JSON value (fuel-driven recursive descent). -/
def parseVal : Nat → List Char → Option (JsonV × List Char)
  | 0, _ => none
  | fuel + 1, cs =>
    match skipWs cs with
    | [] => none
    | c :: rest =>
      if c == '"' then
        match jstrAux (rest.length + 1) [] rest with
        | some (s, r) => some (.str (String.mk s), r)
        | none => none
      else if c == '\x7b' then parseObjBody fuel rest
      else if c == '[' then parseArrBody fuel rest
      else if c == 't' then
        if leadsWith ['r', 'u', 'e'] rest then some (.boolV true, rest.drop 3)
        else none
      else if c == 'f' then
        if leadsWith ['a', 'l', 's', 'e'] rest then some (.boolV false, rest.drop 4)
        else none
      else if c == 'n' then
        if leadsWith ['u', 'l', 'l'] rest then some (.null, rest.drop 3)
        else none
      else if c == '-' || c.isDigit then
        match parseNumLex (c :: rest) with
        | some (lex, r) => some (.num (String.mk lex), r)
        | none => none
      else none

/-- Parse an object body, after the opening brace. -/
def parseObjBody : Nat → List Char → Option (JsonV × List Char)
  | 0, _ => none
  | fuel + 1, cs =>
    match skipWs cs with
    | '\x7d' :: rest => some (.obj [], rest)
    | other => parseMembers fuel [] other

/-- Parse `"key": value` members until the closing brace. -/
def parseMembers : Nat → List (String × JsonV) → List Char →
    Option (JsonV × List Char)
  | 0, _, _ => none
  | fuel + 1, acc, cs =>
    match skipWs cs with
    | '"' :: rest =>
      match jstrAux (rest.length + 1) [] rest with
      | some (k, r1) =>
        match skipWs r1 with
        | ':' :: r2 =>
          match parseVal fuel r2 with
          | some (v, r3) =>
            let acc2 := insertField acc (String.mk k) v
            match skipWs r3 with
            | ',' :: r4 => parseMembers fuel acc2 r4
            | '\x7d' :: r4 => some (.obj acc2, r4)
            | _ => none
          | none => none
        | _ => none
      | none => none
    | _ => none

/-- Parse an array body, after the opening bracket. -/
def parseArrBody : Nat → List Char → Option (JsonV × List Char)
  | 0, _ => none
  | fuel + 1, cs =>
    match skipWs cs with
    | ']' :: rest => some (.arr [], rest)
    | other => parseItems fuel [] other

/-- Parse array items until the closing bracket. -/
def parseItems : Nat → List JsonV → List Char → Option (JsonV × List Char)
  | 0, _, _ => none
  | fuel + 1, acc, cs =>
    match parseVal fuel cs with
    | some (v, r1) =>
      match skipWs r1 with
      | ',' :: r2 => parseItems fuel (acc ++ [v]) r2
      | ']' :: r2 => some (.arr (acc ++ [v]), r2)
      | _ => none
    | none => none

end

/-- Executable model of `json.loads`: parse one value, allow surrounding
whitespace, demand the whole input be consumed.  The fuel bound dominates
any nesting the input can express. -/
def pyJsonLoads (s : String) : Option JsonV :=
  match parseVal (2 * s.data.length + 4) s.data with
  | some (v, rest) => if (skipWs rest).isEmpty then some v else none
  | none => none

/-! ### Source normalizer (`fetch_contract_source`, lines 159-181) -/

/-- `source_json.get("sources", \x7b\x7d)` — the parsed value is always an
object here, since the parsed text begins with an opening brace. -/
def dictGetSources (j : JsonV) : JsonV :=
  match j with
  | .obj fs => (fs.lookup "sources").getD (.obj [])
  | _ => .obj []

/-- `src.get("content", "")` for one sources entry, as consumed by
`"\n".join(...)`: `none` models the uncaught Python exception raised when
the entry is not a dict (`AttributeError`) or its content is not a string
(`TypeError` in the join). -/
def contentOf (v : JsonV) : Option String :=
  match v with
  | .obj cfs =>
    match cfs.lookup "content" with
    | some (.str c) => some c
    | some _ => none
    | none => some ""
  | _ => none

/-- The generator `src.get("content", "") for src in sources.values()`,
run to a list: `none` propagates an entry-level exception. -/
def contentsOf : List (String × JsonV) → Option (List String)
  | [] => some []
  | kv :: t =>
    match contentOf kv.2, contentsOf t with
    | some c, some rest => some (c :: rest)
    | _, _ => none

/-- `src.get("content", "")` with the crash possibility erased (used only
to state results about well-formed entries, where it agrees with
`contentOf`). -/
def contentString (v : JsonV) : String :=
  (contentOf v).getD ""

/-- `"\n".join(src.get("content", "") for src in sources.values())`;
`none` models an uncaught exception (non-dict `sources`, non-dict entry, or
non-string content). -/
def pyJoinSources (j : JsonV) : Option String :=
  match dictGetSources j with
  | .obj fs => (contentsOf fs).map (String.intercalate "\n")
  | _ => none

/-- Shallow embedding of the normalization part of `fetch_contract_source`
(lines 159-179), acting on the raw `SourceCode` string: the double-brace
wrapper is stripped of its first and last character and parsed; the
single-brace wrapper is parsed as is; a parse failure (only
`json.JSONDecodeError` is caught) falls back to the raw string; plain text
passes through.  `none` models an uncaught exception in the join stage. -/
def normalizeSource (source_code : String) : Option String :=
  if leadsWith ['\x7b', '\x7b'] source_code.data then
    match pyJsonLoads (String.mk (source_code.data.drop 1).dropLast) with
    | some j => pyJoinSources j
    | none => some source_code
  else if leadsWith ['\x7b'] source_code.data then
    match pyJsonLoads source_code with
    | some j => pyJoinSources j
    | none => some source_code
  else some source_code

/-- Lines 159-181 of `fetch_contract_source`: the normalized source plus
`is_verified = bool(source_code)` computed from it. -/
def normalizeAndVerify (source_code : String) : Option (Bool × String) :=
  (normalizeSource source_code).map fun sc => (!sc.isEmpty, sc)

/-! ## Helper lemmas -/

/-- Truncation toward zero is monotone. -/
theorem pytrunc_mono {q r : ℚ} (h : q ≤ r) : pytrunc q ≤ pytrunc r := by
  unfold pytrunc
  by_cases hq : 0 ≤ q
  · rw [if_pos hq, if_pos (hq.trans h)]
    exact Int.floor_mono h
  · rw [if_neg hq]
    by_cases hr : 0 ≤ r
    · rw [if_pos hr]
      have h1 : (0 : ℤ) ≤ ⌊-q⌋ := by
        rw [Int.floor_nonneg]
        linarith [lt_of_not_le hq]
      have h2 : (0 : ℤ) ≤ ⌊r⌋ := by rw [Int.floor_nonneg]; exact hr
      omega
    · rw [if_neg hr]
      exact neg_le_neg (Int.floor_mono (neg_le_neg h))

/-- A string starting with `"0x"` is never the literal `"Unknown"`. -/
theorem ox_append_ne_unknown (s : String) : "0x" ++ s ≠ "Unknown" := by
  intro h
  have h2 : ('0' :: 'x' :: s.data).head? = "Unknown".data.head? := by
    have : ("0x" ++ s).data = '0' :: 'x' :: s.data := rfl
    rw [← this, h]
  simp at h2

/-! ## Claims -/

/-- C1: the risk aggregator computes exactly the spec formula — base 0,
+4 when `is_verified` is false, +2 when ownership is not `Renounced`
(both `HeldBy` and `Unknown`), +3 per critical finding, +1.5 per high,
+0.5 per medium, 0 per info finding — truncated to an integer and clamped
into [1,10], for every combination of inputs.  The dictionary field
`renounced = true` corresponds to status `Renounced`; `renounced = false`
corresponds to both non-renounced statuses, which contribute equally. -/
theorem claim_C1_risk_aggregator_formula :
    ∀ (f : Findings) (v : Bool) (owner : String) (n : Nat) (a : String),
      (calculate_risk_score f v ⟨true, owner, n⟩).1 =
        riskScoreSpec v .Renounced f.critical.length f.high.length f.medium.length
      ∧ (calculate_risk_score f v ⟨false, owner, n⟩).1 =
        riskScoreSpec v (.HeldBy a) f.critical.length f.high.length f.medium.length
      ∧ (calculate_risk_score f v ⟨false, owner, n⟩).1 =
        riskScoreSpec v .Unknown f.critical.length f.high.length f.medium.length := by
  intro f v owner n a
  refine ⟨?_, ?_, ?_⟩ <;> cases v <;>
    simp [calculate_risk_score, riskScoreSpec]

/-- C2: for every findings dictionary, verification flag and ownership
dictionary, the risk score lies in the closed interval [1,10]. -/
theorem claim_C2_risk_score_bounds :
    ∀ (f : Findings) (v : Bool) (o : OwnershipInfo),
      1 ≤ (calculate_risk_score f v o).1 ∧ (calculate_risk_score f v o).1 ≤ 10 := by
  intro f v o
  simp only [calculate_risk_score]
  constructor
  · exact le_min (by norm_num) (le_max_left 1 _)
  · exact min_le_left _ _

/-- C6: the risk category returned by the aggregator is the ladder of the
clamped score — ≥8 `Critical`, else ≥6 `High`, else ≥4 `Medium`, else
`Low` — and on the ladder 8 and 10 map to `Critical`, 7 to `High`, 4 to
`Medium`, 1 to `Low`. -/
theorem claim_C6_category_ladder :
    (∀ (f : Findings) (v : Bool) (o : OwnershipInfo),
      (calculate_risk_score f v o).2 = categoryOfScore (calculate_risk_score f v o).1)
    ∧ categoryOfScore 8 = "Critical" ∧ categoryOfScore 10 = "Critical"
    ∧ categoryOfScore 7 = "High" ∧ categoryOfScore 4 = "Medium"
    ∧ categoryOfScore 1 = "Low" := by
  refine ⟨fun f v o => ?_, by norm_num [categoryOfScore], by norm_num [categoryOfScore],
    by norm_num [categoryOfScore], by norm_num [categoryOfScore], by norm_num [categoryOfScore]⟩
  simp [calculate_risk_score, categoryOfScore]

/-- C9: the risk score is monotone in critical findings — prepending one
more critical finding (all else equal) never decreases the score, and a
critical list of the same length (e.g. an existing finding with one more
occurrence counted) leaves the score unchanged. -/
theorem claim_C9_critical_monotonicity :
    ∀ (f : Findings) (v : Bool) (o : OwnershipInfo) (g : Finding),
      (calculate_risk_score f v o).1 ≤
        (calculate_risk_score { f with critical := g :: f.critical } v o).1
      ∧ ∀ (c2 : List Finding), c2.length = f.critical.length →
          (calculate_risk_score { f with critical := c2 } v o).1 =
            (calculate_risk_score f v o).1 := by
  intro f v o g
  constructor
  · simp only [calculate_risk_score, List.length_cons]
    refine min_le_min le_rfl (max_le_max le_rfl (pytrunc_mono ?_))
    push_cast
    nlinarith [sq_nonneg (1 : ℚ)]
  · intro c2 hlen
    simp only [calculate_risk_score, hlen]

/-- Witness for the hypothesis-bearing part of C9, at concrete inputs:
a critical finding with a higher occurrence count scores the same as one
with a single occurrence. -/
theorem claim_C9_critical_monotonicity_witness :
    (calculate_risk_score ⟨[⟨"Delegatecall", "d", 1, .str "s"⟩], [], [], []⟩ true
        ⟨true, "0xabc", 1⟩).1 ≤
      (calculate_risk_score
        ⟨[⟨"Self-Destruct", "d", 1, .str "s"⟩, ⟨"Delegatecall", "d", 1, .str "s"⟩],
          [], [], []⟩ true ⟨true, "0xabc", 1⟩).1
    ∧ (calculate_risk_score ⟨[⟨"Delegatecall", "d", 7, .str "s"⟩], [], [], []⟩ true
        ⟨true, "0xabc", 1⟩).1 =
      (calculate_risk_score ⟨[⟨"Delegatecall", "d", 1, .str "s"⟩], [], [], []⟩ true
        ⟨true, "0xabc", 1⟩).1 := by
  have h := claim_C9_critical_monotonicity ⟨[⟨"Delegatecall", "d", 1, .str "s"⟩], [], [], []⟩
    true ⟨true, "0xabc", 1⟩ ⟨"Self-Destruct", "d", 1, .str "s"⟩
  exact ⟨h.1, h.2 [⟨"Delegatecall", "d", 7, .str "s"⟩] rfl⟩

/-- C3 as stated is refuted below (`claim_C3_counterexample`): the code
compares the whole third topic to the 66-character `"0x" + "0"*64`, not the
extracted last-40-character address to 40 zeros.  Amended claim: for every
nonempty event list whose last event has at least three topic fields, the
resolver reports `Renounced` exactly when the full third topic equals
`"0x"` followed by 64 zero hex characters, and otherwise `HeldBy` of
`"0x"` plus the topic's last 40 characters; a single event with three
topics whose third topic is the 66-character zero topic yields
`Renounced`. -/
theorem claim_C3_renouncement_amended :
    ∀ (es : List LogEvent) (e : LogEvent), es.getLast? = some e →
      3 ≤ e.topics.length →
      statusOfInfo (resolveOwnership es) =
        (if thirdTopic e = zeroTopic then .Renounced
         else .HeldBy ("0x" ++ lastChars 40 (thirdTopic e)))
      ∧ ((resolveOwnership es).renounced = true ↔ thirdTopic e = zeroTopic)
      ∧ (resolveOwnership es).transfer_events = es.length := by
  intro es e hlast hlen
  unfold resolveOwnership
  rw [hlast]
  simp only [if_pos hlen]
  by_cases hz : e.topics.getD 2 "" = zeroTopic
  · rw [if_pos hz]
    refine ⟨?_, iff_of_true rfl hz, rfl⟩
    rw [if_pos (show thirdTopic e = zeroTopic from hz)]
    rfl
  · rw [if_neg hz]
    refine ⟨?_, iff_of_false (by simp) hz, rfl⟩
    rw [if_neg (show ¬thirdTopic e = zeroTopic from hz)]
    unfold statusOfInfo
    simp only [Bool.false_eq_true, if_false]
    rw [if_neg (ox_append_ne_unknown _)]
    rfl

/-- Counterexample to C3 as stated: for a last event whose third topic is
`"0x1"` followed by 63 zeros, the last 40 hex characters equal the
40-zero address, yet the resolver does not report `Renounced` (it reports
the held address `"0x" + "0"*40`). -/
theorem claim_C3_counterexample :
    lastChars 40 (String.mk ('0' :: 'x' :: '1' :: List.replicate 63 '0')) = zeroAddr40
    ∧ (resolveOwnership
        [⟨["t0", "t1", String.mk ('0' :: 'x' :: '1' :: List.replicate 63 '0')]⟩]).renounced
        = false
    ∧ statusOfInfo (resolveOwnership
        [⟨["t0", "t1", String.mk ('0' :: 'x' :: '1' :: List.replicate 63 '0')]⟩]) =
        .HeldBy ("0x" ++ zeroAddr40) := by
  refine ⟨by decide, by decide, by decide⟩

/-- Witness for the amended C3 at a concrete input: a single event whose
third topic is the 66-character zero topic resolves to `Renounced` with one
transfer event counted. -/
theorem claim_C3_renouncement_amended_witness :
    statusOfInfo (resolveOwnership [⟨["a", "b", zeroTopic]⟩]) = .Renounced
    ∧ (resolveOwnership [⟨["a", "b", zeroTopic]⟩]).transfer_events = 1 := by
  have h := claim_C3_renouncement_amended [⟨["a", "b", zeroTopic]⟩]
    ⟨["a", "b", zeroTopic]⟩ (by decide) (by decide)
  refine ⟨?_, h.2.2⟩
  rw [h.1]
  decide

/-- C7: the resolver handles degenerate inputs without erroring — the
empty event list yields `Unknown` with `transfer_events = 0`, and a
nonempty list whose last event has fewer than three topics yields
`Unknown` while still counting every event. -/
theorem claim_C7_degenerate_events :
    (resolveOwnership [] = ⟨false, "Unknown", 0⟩
      ∧ statusOfInfo (resolveOwnership []) = .Unknown)
    ∧ ∀ (es : List LogEvent) (e : LogEvent), es.getLast? = some e →
        e.topics.length < 3 →
        resolveOwnership es = ⟨false, "Unknown", es.length⟩
        ∧ statusOfInfo (resolveOwnership es) = .Unknown := by
  refine ⟨⟨by decide, by decide⟩, ?_⟩
  intro es e hlast hlen
  unfold resolveOwnership
  rw [hlast]
  simp only [if_neg (by omega : ¬ 3 ≤ e.topics.length)]
  exact ⟨trivial, rfl⟩

/-- Witness for C7's hypothesis-bearing part: one malformed event (a
single topic) yields `Unknown` with `transfer_events = 1`. -/
theorem claim_C7_degenerate_events_witness :
    resolveOwnership [⟨["only-topic"]⟩] = ⟨false, "Unknown", 1⟩
    ∧ statusOfInfo (resolveOwnership [⟨["only-topic"]⟩]) = .Unknown := by
  have h := (claim_C7_degenerate_events).2 [⟨["only-topic"]⟩] ⟨["only-topic"]⟩
    (by decide) (by decide)
  exact ⟨h.1, h.2⟩

/-! ### Scanner lemmas -/

/-- The finding `scanRules` appends for a rule whose pattern matched. -/
def mkFinding (r : Rule) (src : List Char) : Finding :=
  { name := r.name, description := r.description
    occurrences := (pyFindall r.pattern src).length
    sample := (pyFindall r.pattern src).headD (.str "") }

/-- Every produced finding comes from a catalog rule whose pattern
matched, and carries that rule's data. -/
theorem mem_scanRules {rules : List Rule} {src : List Char} {f : Finding}
    (h : f ∈ scanRules rules src) :
    ∃ r ∈ rules, pyFindall r.pattern src ≠ [] ∧ f = mkFinding r src := by
  induction rules with
  | nil => simp [scanRules] at h
  | cons r rs ih =>
    simp only [scanRules] at h
    by_cases hm : (pyFindall r.pattern src).isEmpty
    · rw [if_pos hm] at h
      obtain ⟨r2, hr2, hne, hf⟩ := ih h
      exact ⟨r2, List.mem_cons_of_mem _ hr2, hne, hf⟩
    · rw [if_neg hm] at h
      rcases List.mem_cons.mp h with hf | hf
      · refine ⟨r, List.mem_cons_self _ _, ?_, hf⟩
        simpa [List.isEmpty_iff] using hm
      · obtain ⟨r2, hr2, hne, hf2⟩ := ih hf
        exact ⟨r2, List.mem_cons_of_mem _ hr2, hne, hf2⟩

/-- Every catalog rule whose pattern matched produces its finding. -/
theorem scanRules_mem_of {rules : List Rule} {src : List Char} {r : Rule}
    (hr : r ∈ rules) (hne : pyFindall r.pattern src ≠ []) :
    mkFinding r src ∈ scanRules rules src := by
  induction rules with
  | nil => cases hr
  | cons r0 rs ih =>
    simp only [scanRules]
    rcases List.mem_cons.mp hr with h0 | h0
    · subst h0
      rw [if_neg (by simpa [List.isEmpty_iff] using hne)]
      exact List.mem_cons_self _ _
    · by_cases hm : (pyFindall r0.pattern src).isEmpty
      · rw [if_pos hm]; exact ih h0
      · rw [if_neg hm]; exact List.mem_cons_of_mem _ (ih h0)

/-- Rule names are distinct within each severity tier of the catalog. -/
theorem severity_names_nodup (sev : Severity) :
    ((severityRules sev).map Rule.name).Nodup := by
  cases sev <;> decide

/-- The per-severity findings of `scan_for_patterns` are the scan of that
severity's rules. -/
theorem severityFindings_scan (sev : Severity) (source : String) :
    severityFindings sev (scan_for_patterns source) =
      scanRules (severityRules sev) source.data := by
  cases sev <;> rfl

/-- `pyFindall` is empty exactly when the match sequence is, and has the
same length. -/
theorem pyFindall_ne_nil_iff (r : Regex) (s : List Char) :
    pyFindall r s ≠ [] ↔ Regex.findAll r s ≠ [] := by
  unfold pyFindall
  simp

/-- C4: for every source text and every rule in the catalog, the scanner
produces a finding for that rule iff the rule's pattern has at least one
match in the text, and that finding's occurrence count is the exact number
of non-overlapping case-insensitive matches (hence at least 1). -/
theorem claim_C4_scanner_match_counts :
    ∀ (source : String) (sev : Severity) (r : Rule), r ∈ severityRules sev →
      ((∃ f ∈ severityFindings sev (scan_for_patterns source), f.name = r.name) ↔
        Regex.findAll r.pattern source.data ≠ [])
      ∧ ∀ f ∈ severityFindings sev (scan_for_patterns source), f.name = r.name →
          f.occurrences = (Regex.findAll r.pattern source.data).length
          ∧ 1 ≤ f.occurrences := by
  intro source sev r hr
  rw [severityFindings_scan]
  constructor
  · constructor
    · rintro ⟨f, hf, hname⟩
      obtain ⟨r2, hr2, hne, rfl⟩ := mem_scanRules hf
      have he : r2 = r :=
        List.inj_on_of_nodup_map (severity_names_nodup sev) hr2 hr hname
      rw [he] at hne
      exact (pyFindall_ne_nil_iff _ _).mp hne
    · intro hne
      exact ⟨mkFinding r source.data,
        scanRules_mem_of hr ((pyFindall_ne_nil_iff _ _).mpr hne), rfl⟩
  · intro f hf hname
    obtain ⟨r2, hr2, hne, rfl⟩ := mem_scanRules hf
    have he : r2 = r :=
      List.inj_on_of_nodup_map (severity_names_nodup sev) hr2 hr hname
    rw [he] at hne ⊢
    refine ⟨?_, ?_⟩
    · show (pyFindall r.pattern source.data).length = _
      exact List.length_map _ _
    · have hpos := List.length_pos.mpr hne
      show 1 ≤ (pyFindall r.pattern source.data).length
      omega

/-- Witness for C4 at a concrete input: `"selfdestruct ("` matches the
Self-Destruct rule, so a critical finding is produced for it. -/
theorem claim_C4_scanner_match_counts_witness :
    Regex.findAll ruleSelfDestruct.pattern "selfdestruct (".data ≠ []
    ∧ (∃ f ∈ (scan_for_patterns "selfdestruct (").critical,
        f.name = "Self-Destruct") := by
  have hmem : ruleSelfDestruct ∈ severityRules .critical :=
    List.mem_cons_of_mem _ (List.mem_cons_of_mem _ (List.mem_cons_of_mem _
      (List.mem_cons_self _ _)))
  have h := claim_C4_scanner_match_counts "selfdestruct (" .critical
    ruleSelfDestruct hmem
  have hne : Regex.findAll ruleSelfDestruct.pattern "selfdestruct (".data ≠ [] := by
    decide
  exact ⟨hne, h.1.mpr hne⟩

/-- C8 as stated is refuted below (`claim_C8_counterexample`): Python
`re.findall` yields group captures when the pattern has capture groups, so
`sample` is the first match's capture, not the full matched text.  Amended
claim: the sample is the first element of the findall result — the full
text of the first match exactly when the rule's pattern has no capturing
group. -/
theorem claim_C8_sample_amended :
    ∀ (source : String) (sev : Severity) (r : Rule), r ∈ severityRules sev →
      ∀ f ∈ severityFindings sev (scan_for_patterns source), f.name = r.name →
        f.sample = (pyFindall r.pattern source.data).headD (.str "")
        ∧ (r.pattern.numGroups = 0 →
            f.sample = .str (String.mk
              (((Regex.findAll r.pattern source.data).headD ⟨[], [], []⟩).consumed))) := by
  intro source sev r hr f hf hname
  rw [severityFindings_scan] at hf
  obtain ⟨r2, hr2, hne, rfl⟩ := mem_scanRules hf
  have he : r2 = r :=
    List.inj_on_of_nodup_map (severity_names_nodup sev) hr2 hr hname
  rw [he] at hne ⊢
  refine ⟨rfl, fun hg => ?_⟩
  have hfa : Regex.findAll r.pattern source.data ≠ [] :=
    (pyFindall_ne_nil_iff _ _).mp hne
  obtain ⟨m, ms, hl⟩ := List.exists_cons_of_ne_nil hfa
  show (pyFindall r.pattern source.data).headD (.str "") = _
  unfold pyFindall
  rw [hl]
  simp [toFItem, hg]

/-- Witness for the amended C8 at a concrete input: the Self-Destruct
pattern has no group, and the sample is the full first match. -/
theorem claim_C8_sample_amended_witness :
    ((scan_for_patterns "selfdestruct (").critical.headD ⟨"", "", 0, .str ""⟩).sample =
      FItem.str "selfdestruct (" := by
  have hmem : ruleSelfDestruct ∈ severityRules .critical :=
    List.mem_cons_of_mem _ (List.mem_cons_of_mem _ (List.mem_cons_of_mem _
      (List.mem_cons_self _ _)))
  have h := claim_C8_sample_amended "selfdestruct (" .critical ruleSelfDestruct hmem
    ((scan_for_patterns "selfdestruct (").critical.headD ⟨"", "", 0, .str ""⟩)
    (by decide) (by decide)
  rw [h.2 (by decide)]
  decide

/-- Counterexample to C8 as stated: on `"function mint() external"` the
Hidden Mint pattern has exactly one match whose full text is the whole
string, yet the produced finding's sample is the group capture
`"external"`. -/
theorem claim_C8_counterexample :
    (scan_for_patterns "function mint() external").critical =
      [⟨"Hidden Mint", "Owner can create unlimited tokens", 1, .str "external"⟩]
    ∧ ((ruleHiddenMint.pattern.findAll "function mint() external".data).map
        fun m => String.mk m.consumed) = ["function mint() external"]
    ∧ FItem.str "external" ≠ FItem.str "function mint() external" := by
  exact ⟨by decide, by decide, by decide⟩

/-! ### Normalizer lemmas -/

/-- When every sources entry is a well-formed record, the generator yields
exactly the per-entry content strings in map order. -/
theorem contentsOf_eq_map {fs : List (String × JsonV)}
    (h : ∀ kv ∈ fs, (contentOf kv.2).isSome) :
    contentsOf fs = some (fs.map fun kv => contentString kv.2) := by
  induction fs with
  | nil => rfl
  | cons kv t ih =>
    have hkv := h kv (List.mem_cons_self _ _)
    obtain ⟨c, hc⟩ := Option.isSome_iff_exists.mp hkv
    have ht := ih fun kv2 hkv2 => h kv2 (List.mem_cons_of_mem _ hkv2)
    simp only [contentsOf, hc, ht, contentString]
    rw [List.map_cons]
    simp [contentString, hc]

/-- When every sources entry lacks content (contributing `""`), the
generator yields a list of empty strings. -/
theorem contentsOf_empty {fs : List (String × JsonV)}
    (h : ∀ kv ∈ fs, contentOf kv.2 = some "") :
    contentsOf fs = some (List.replicate fs.length "") := by
  induction fs with
  | nil => rfl
  | cons kv t ih =>
    have hkv := h kv (List.mem_cons_self _ _)
    have ht := ih fun kv2 hkv2 => h kv2 (List.mem_cons_of_mem _ hkv2)
    simp only [contentsOf, hkv, ht, List.length_cons, List.replicate_succ]

/-- Reduction of the normalizer on the single-brace branch. -/
theorem normalizeSource_single {s : String}
    (h1 : leadsWith ['\x7b'] s.data = true)
    (h2 : leadsWith ['\x7b', '\x7b'] s.data = false) :
    normalizeSource s =
      (match pyJsonLoads s with
       | some j => pyJoinSources j
       | none => some s) := by
  unfold normalizeSource
  rw [if_neg (by simp [h2]), if_pos (by simp [h1])]

/-- Reduction of the normalizer on the double-brace branch. -/
theorem normalizeSource_double {s : String}
    (h2 : leadsWith ['\x7b', '\x7b'] s.data = true) :
    normalizeSource s =
      (match pyJsonLoads (String.mk (s.data.drop 1).dropLast) with
       | some j => pyJoinSources j
       | none => some s) := by
  unfold normalizeSource
  rw [if_pos (by simp [h2])]

/-- A string whose first character already fails a one-character test
fails every longer test with the same first character. -/
theorem leadsWith_cons_false {c : Char} {cs s : List Char}
    (h : leadsWith [c] s = false) : leadsWith (c :: cs) s = false := by
  cases s with
  | nil => rfl
  | cons a t =>
    have hca : (c == a) = false := by
      by_contra hne
      rw [Bool.not_eq_false] at hne
      simp [leadsWith, hne] at h
    simp [leadsWith, hca]

/-- Join result when the parsed wrapper has well-formed sources. -/
theorem pyJoinSources_eq {j : JsonV} {fs : List (String × JsonV)}
    (hsrc : dictGetSources j = .obj fs)
    (hent : ∀ kv ∈ fs, (contentOf kv.2).isSome) :
    pyJoinSources j =
      some (String.intercalate "\n" (fs.map fun kv => contentString kv.2)) := by
  unfold pyJoinSources
  rw [hsrc]
  show Option.map (String.intercalate "\n") (contentsOf fs) = _
  rw [contentsOf_eq_map hent]
  rfl

/-- Join result when every sources entry lacks content. -/
theorem pyJoinSources_empty {j : JsonV} {fs : List (String × JsonV)}
    (hsrc : dictGetSources j = .obj fs)
    (hent : ∀ kv ∈ fs, contentOf kv.2 = some "") :
    pyJoinSources j =
      some (String.intercalate "\n" (List.replicate fs.length "")) := by
  unfold pyJoinSources
  rw [hsrc]
  show Option.map (String.intercalate "\n") (contentsOf fs) = _
  rw [contentsOf_empty hent]
  rfl

/-- C5: the source normalizer (1) maps a JSON wrapper whose `sources`
field holds `content` records — single- or double-braced — to the
newline-joined contents in map-iteration order, in particular the
single-file wrapper of `"X"` to exactly `"X"`; (2) returns plain text
(not starting with a brace) unchanged; (3) falls back to the original
string when the detected wrapper fails to parse, never aborting. -/
theorem claim_C5_normalizer :
    (∀ s : String, leadsWith ['\x7b'] s.data = false → normalizeSource s = some s)
    ∧ (∀ s : String, leadsWith ['\x7b'] s.data = true →
        leadsWith ['\x7b', '\x7b'] s.data = false → pyJsonLoads s = none →
        normalizeSource s = some s)
    ∧ (∀ s : String, leadsWith ['\x7b', '\x7b'] s.data = true →
        pyJsonLoads (String.mk (s.data.drop 1).dropLast) = none →
        normalizeSource s = some s)
    ∧ (∀ (s : String) (j : JsonV) (fs : List (String × JsonV)),
        leadsWith ['\x7b'] s.data = true → leadsWith ['\x7b', '\x7b'] s.data = false →
        pyJsonLoads s = some j → dictGetSources j = .obj fs →
        (∀ kv ∈ fs, (contentOf kv.2).isSome) →
        normalizeSource s =
          some (String.intercalate "\n" (fs.map fun kv => contentString kv.2)))
    ∧ (∀ (s : String) (j : JsonV) (fs : List (String × JsonV)),
        leadsWith ['\x7b', '\x7b'] s.data = true →
        pyJsonLoads (String.mk (s.data.drop 1).dropLast) = some j →
        dictGetSources j = .obj fs →
        (∀ kv ∈ fs, (contentOf kv.2).isSome) →
        normalizeSource s =
          some (String.intercalate "\n" (fs.map fun kv => contentString kv.2)))
    ∧ normalizeSource "\x7b\"sources\":\x7b\"A.sol\":\x7b\"content\":\"X\"\x7d\x7d\x7d" = some "X"
    ∧ normalizeSource "X" = some "X" := by
  refine ⟨?_, ?_, ?_, ?_, ?_, rfl, rfl⟩
  · intro s h1
    unfold normalizeSource
    rw [if_neg (by simp [leadsWith_cons_false h1]), if_neg (by simp [h1])]
  · intro s h1 h2 hp
    rw [normalizeSource_single h1 h2, hp]
  · intro s h2 hp
    rw [normalizeSource_double h2, hp]
  · intro s j fs h1 h2 hp hsrc hent
    rw [normalizeSource_single h1 h2, hp]
    show pyJoinSources j = _
    exact pyJoinSources_eq hsrc hent
  · intro s j fs h2 hp hsrc hent
    rw [normalizeSource_double h2, hp]
    show pyJoinSources j = _
    exact pyJoinSources_eq hsrc hent

/-- Witness for C5's hypothesis-bearing conjuncts at concrete inputs:
plain text, a malformed single-brace wrapper, a malformed double-brace
wrapper, and a well-formed double-brace two-file wrapper. -/
theorem claim_C5_normalizer_witness :
    normalizeSource "plain text" = some "plain text"
    ∧ normalizeSource "\x7bnot json" = some "\x7bnot json"
    ∧ normalizeSource "\x7b\x7bnot json\x7d\x7d" = some "\x7b\x7bnot json\x7d\x7d"
    ∧ normalizeSource
        "\x7b\x7b\"sources\":\x7b\"a\":\x7b\"content\":\"A\"\x7d,\"b\":\x7b\"content\":\"B\"\x7d\x7d\x7d\x7d"
        = some "A\nB" := by
  have h := claim_C5_normalizer
  refine ⟨h.1 _ (by decide), h.2.1 _ (by decide) (by decide) rfl,
    h.2.2.1 _ (by decide) rfl, ?_⟩
  exact h.2.2.2.2.1
    "\x7b\x7b\"sources\":\x7b\"a\":\x7b\"content\":\"A\"\x7d,\"b\":\x7b\"content\":\"B\"\x7d\x7d\x7d\x7d"
    (.obj [("sources", .obj [("a", .obj [("content", .str "A")]),
      ("b", .obj [("content", .str "B")])])])
    [("a", .obj [("content", .str "A")]), ("b", .obj [("content", .str "B")])]
    (by decide) rfl rfl (by decide)

/-- The C10 counterexample input: a single-brace wrapper whose two sources
entries both lack a `content` field. -/
def emptyEntriesWrapper : String :=
  "\x7b\"sources\":\x7b\"a\":\x7b\x7d,\"b\":\x7b\x7d\x7d\x7d"

/-- Counterexample to C10 as stated: a parsed wrapper whose sources
entries all lack `content` does not normalize to the empty string when
there are two of them — the join contributes a separating newline, and the
contract is then treated as verified, not unverified. -/
theorem claim_C10_counterexample :
    pyJsonLoads emptyEntriesWrapper =
      some (.obj [("sources", .obj [("a", .obj []), ("b", .obj [])])])
    ∧ normalizeSource emptyEntriesWrapper = some "\n"
    ∧ ("\n" : String) ≠ ""
    ∧ normalizeAndVerify emptyEntriesWrapper = some (true, "\n") := by
  exact ⟨rfl, rfl, by decide, rfl⟩

/-- C10 amended, over both wrapper forms (the double-brace form stripped
of its first and last character before parsing, as in the code): a parsed
wrapper with no (or an empty) `sources` mapping normalizes to the empty
string and is treated as unverified, the original text being discarded;
entries lacking `content` contribute empty strings, so `k` such entries
yield `k-1` newline separators (empty, hence unverified, only for
`k ≤ 1`). -/
theorem claim_C10_amended :
    (∀ (s : String) (j : JsonV), leadsWith ['\x7b'] s.data = true →
      leadsWith ['\x7b', '\x7b'] s.data = false → pyJsonLoads s = some j →
      dictGetSources j = .obj [] →
      normalizeAndVerify s = some (false, ""))
    ∧ (∀ (s : String) (j : JsonV), leadsWith ['\x7b', '\x7b'] s.data = true →
        pyJsonLoads (String.mk (s.data.drop 1).dropLast) = some j →
        dictGetSources j = .obj [] →
        normalizeAndVerify s = some (false, ""))
    ∧ (∀ (s : String) (j : JsonV) (fs : List (String × JsonV)),
        leadsWith ['\x7b'] s.data = true → leadsWith ['\x7b', '\x7b'] s.data = false →
        pyJsonLoads s = some j → dictGetSources j = .obj fs →
        (∀ kv ∈ fs, contentOf kv.2 = some "") →
        normalizeSource s =
          some (String.intercalate "\n" (List.replicate fs.length "")))
    ∧ (∀ (s : String) (j : JsonV) (fs : List (String × JsonV)),
        leadsWith ['\x7b', '\x7b'] s.data = true →
        pyJsonLoads (String.mk (s.data.drop 1).dropLast) = some j →
        dictGetSources j = .obj fs →
        (∀ kv ∈ fs, contentOf kv.2 = some "") →
        normalizeSource s =
          some (String.intercalate "\n" (List.replicate fs.length ""))) := by
  refine ⟨?_, ?_, ?_, ?_⟩
  · intro s j h1 h2 hp hsrc
    unfold normalizeAndVerify
    rw [normalizeSource_single h1 h2, hp]
    show Option.map _ (pyJoinSources j) = _
    rw [pyJoinSources_empty hsrc (by intro kv hkv; cases hkv)]
    rfl
  · intro s j h2 hp hsrc
    unfold normalizeAndVerify
    rw [normalizeSource_double h2, hp]
    show Option.map _ (pyJoinSources j) = _
    rw [pyJoinSources_empty hsrc (by intro kv hkv; cases hkv)]
    rfl
  · intro s j fs h1 h2 hp hsrc hent
    rw [normalizeSource_single h1 h2, hp]
    show pyJoinSources j = _
    exact pyJoinSources_empty hsrc hent
  · intro s j fs h2 hp hsrc hent
    rw [normalizeSource_double h2, hp]
    show pyJoinSources j = _
    exact pyJoinSources_empty hsrc hent

/-- Witness for the amended C10, covering both wrapper forms: wrappers
without a `sources` field are unverified with empty source, and
two-empty-entries wrappers join to a single newline. -/
theorem claim_C10_amended_witness :
    normalizeAndVerify "\x7b\"other\":1\x7d" = some (false, "")
    ∧ normalizeAndVerify "\x7b\x7b\"other\":1\x7d\x7d" = some (false, "")
    ∧ normalizeSource emptyEntriesWrapper =
        some (String.intercalate "\n" (List.replicate 2 ""))
    ∧ normalizeSource ("\x7b" ++ emptyEntriesWrapper ++ "\x7d") =
        some (String.intercalate "\n" (List.replicate 2 "")) := by
  have h := claim_C10_amended
  refine ⟨h.1 "\x7b\"other\":1\x7d" (.obj [("other", .num "1")])
      (by decide) (by decide) rfl rfl,
    h.2.1 "\x7b\x7b\"other\":1\x7d\x7d" (.obj [("other", .num "1")])
      (by decide) rfl rfl,
    h.2.2.1 emptyEntriesWrapper
      (.obj [("sources", .obj [("a", .obj []), ("b", .obj [])])])
      [("a", .obj []), ("b", .obj [])]
      (by decide) (by decide) rfl rfl (by decide),
    h.2.2.2 ("\x7b" ++ emptyEntriesWrapper ++ "\x7d")
      (.obj [("sources", .obj [("a", .obj []), ("b", .obj [])])])
      [("a", .obj []), ("b", .obj [])]
      (by decide) rfl rfl (by decide)⟩

end ScanContract
